import Mathlib

/-!
Verification of the sale-order report generator (`sale_order.py`).

The Python source is shallowly embedded: Python strings are `List Char`
(so that every operation is structurally recursive and kernel-reducible),
Python numbers are `ℚ`, pandas tables are lists of structures, `None`/NaN
cells are `Option`, and the SQLite counter store is an association list
threaded as explicit state.  Each definition mirrors one function of the
source file; the theorems at the end settle the specification claims.
-/

namespace SaleOrder

/-- Python strings are modelled as lists of characters. -/
abbrev Str := List Char

/-- `str.upper()`. -/
def upperStr (s : Str) : Str := s.map Char.toUpper

/-- `str.lower()`. -/
def lowerStr (s : Str) : Str := s.map Char.toLower

/-- `re.split` on a character class: splits at every character satisfying
`p`, keeping empty segments, as Python's `re.split(r'[xX]', s)` does. -/
def splitOn (p : Char → Bool) : Str → List Str
  | [] => [[]]
  | c :: cs =>
    if p c then [] :: splitOn p cs
    else
      match splitOn p cs with
      | [] => [[c]]
      | g :: gs => (c :: g) :: gs

/-- Python's substring test `needle in hay`. -/
def containsSub (hay needle : Str) : Bool :=
  (List.range (hay.length + 1)).any (fun i => needle.isPrefixOf (hay.drop i))

/-- Python's `str.strip()` (whitespace removal at both ends). -/
def stripChars (s : Str) : Str :=
  ((s.dropWhile Char.isWhitespace).reverse.dropWhile Char.isWhitespace).reverse

/-- Value of a digit string read in base 10 (helper for number parsing). -/
def digitsToNat (cs : Str) : Nat :=
  cs.foldl (fun a c => 10 * a + (c.toNat - 48)) 0

/-- Numeric value of one digit character. -/
def digitVal (c : Char) : Nat := c.toNat - 48

/-- Parse an unsigned decimal literal (`"12"`, `"12.5"`, `"12."`, `".5"`),
the fragment of Python's `float()` grammar the program's data uses.
Returns `none` where `float()` raises `ValueError`. -/
def parseUnsigned (cs : Str) : Option ℚ :=
  let ip := cs.takeWhile Char.isDigit
  let rest := cs.dropWhile Char.isDigit
  match rest with
  | [] => if ip = [] then none else some (digitsToNat ip)
  | '.' :: fp =>
    if fp.all Char.isDigit ∧ (ip ≠ [] ∨ fp ≠ []) then
      some ((digitsToNat ip : ℚ) + (digitsToNat fp : ℚ) / (10 : ℚ) ^ fp.length)
    else none
  | _ => none

/-- Python's `float(s)` on decimal literals with an optional leading minus;
`none` models the raised `ValueError`. -/
def parseFloat (s : Str) : Option ℚ :=
  if s.head? = some '-' then (parseUnsigned s.tail).map (fun q => -q)
  else parseUnsigned s

/-- `calculate_sqft` (sale_order.py lines 242-257): safe SQFT computation.
Returns 0 when `size` has no `x`/`X` separator, does not split into exactly
two parts, or a part fails to parse (the caught exception). -/
def calculate_sqft (size : Str) (qty : ℚ) : ℚ :=
  if (upperStr size).contains 'X' = false then 0
  else
    match splitOn (fun c => c == 'x' || c == 'X') size with
    | [p1, p2] =>
      match parseFloat p1, parseFloat p2 with
      | some l, some b => if l ≤ 15 ∧ b ≤ 15 then l * b * qty else l * b / 144 * qty
      | _, _ => 0
    | _ => 0

/-- The two shapes of SQFT cell content emitted by `get_sqft_formula`
(sale_order.py lines 158-168): the literal string `"0"` for laminate/liner
rows, or the `LET` formula
`=LET(a,LEFT(B r,1)*RIGHT(B r,1)*E r, b,LEFT(B r,2)*RIGHT(B r,2)/144*E r, IF(LEN(B r)<4,a,b))`
for every other product (the row number only fixes which cells are read). -/
inductive SqftFormula where
  | const0
  | letSqft
deriving DecidableEq

/-- `get_sqft_formula` (sale_order.py lines 158-168), reduced to the shape of
the emitted cell content. -/
def get_sqft_formula (product : Str) : SqftFormula :=
  if lowerStr product = "laminate".data ∨ lowerStr product = "liner".data then .const0
  else .letSqft

/-- Excel evaluation of the emitted SQFT cell on the row's own cells:
`sizeText` is the text in the row's SIZE cell (column B) and `e` the number
in its QUANTITY cell (column E).  `LEFT`/`RIGHT` take characters, `LEN`
counts them, `*` coerces text to a number (`none` models a `#VALUE!` error),
and `IF` evaluates only the selected branch. -/
def evalSqftFormula (f : SqftFormula) (sizeText : Str) (e : ℚ) : Option ℚ :=
  match f with
  | .const0 => some 0
  | .letSqft =>
    if sizeText.length < 4 then
      match parseFloat (sizeText.take 1), parseFloat (sizeText.drop (sizeText.length - 1)) with
      | some x, some y => some (x * y * e)
      | _, _ => none
    else
      match parseFloat (sizeText.take 2), parseFloat (sizeText.drop (sizeText.length - 2)) with
      | some x, some y => some (x * y / 144 * e)
      | _, _ => none

/-- `extract_thickness_from_category` (sale_order.py lines 153-156):
`re.match(r"(\d+\.?\d*)mm", category.lower())` — a leading digit run, an
optional dot with further digits, immediately followed by `"mm"`. -/
def extract_thickness_from_category (category : Str) : Option ℚ :=
  let ls := lowerStr category
  let ip := ls.takeWhile Char.isDigit
  let rest := ls.dropWhile Char.isDigit
  if ip = [] then none
  else
    match rest with
    | '.' :: r2 =>
      let fp := r2.takeWhile Char.isDigit
      if (r2.dropWhile Char.isDigit).take 2 = "mm".data then
        some ((digitsToNat ip : ℚ) + (digitsToNat fp : ℚ) / (10 : ℚ) ^ fp.length)
      else none
    | r => if r.take 2 = "mm".data then some (digitsToNat ip) else none

/-- Shapes of the WEIGHT cell emitted by `get_weight_formula`: the literal
`"0"`, `=F r * w` (coefficient times the row's SQFT cell), or `=E r * w`
(coefficient times the row's QUANTITY cell). -/
inductive WeightFormula where
  | const0
  | mulSqft (w : ℚ)
  | mulQty (w : ℚ)
deriving DecidableEq

/-- A weight-per-piece table keyed by `(product.lower(), brand.upper())`
(the `weight_map` dict) as an association list. -/
abbrev WeightMap := List ((Str × Str) × ℚ)

/-- A thickness-keyed weight table (the `hdmr_map`, `mdf_map`, `ply_map`,
`pvc_map`, `wpc_map` dicts) as an association list. -/
abbrev ThicknessMap := List (ℚ × ℚ)

/-- Python `key in dict` / `dict[key]` on the association lists. -/
def lookupAssoc {α : Type} [DecidableEq α] (m : List (α × ℚ)) (k : α) : Option ℚ :=
  (m.find? (fun p => decide (p.1 = k))).map (fun p => p.2)

/-- One prepared data row (the Master columns, after `prepare_data`'s
`astype(str).str.strip()` on the text columns and numeric coercion of
QUANTITY; CATEGORY may have been NaN, kept as `Option`). -/
structure Row where
  product : Str
  size : Str
  category : Option Str
  brand : Str
  quantity : ℚ
deriving DecidableEq

/-- `str(row['CATEGORY'])`: a NaN cell prints as `"nan"`. -/
def categoryText (r : Row) : Str :=
  match r.category with
  | some s => s
  | none => "nan".data

/-- `get_weight_formula` (sale_order.py lines 170-211), reduced to the shape
of the emitted cell content. -/
def get_weight_formula (r : Row) (weight_map : WeightMap)
    (hdmr_map mdf_map ply_map pvc_map wpc_map : ThicknessMap) : WeightFormula :=
  let product := lowerStr r.product
  let brand := upperStr r.brand
  let category := lowerStr (categoryText r)
  if product = "door".data then .mulSqft (3/2)
  else if product = "board".data then .mulSqft 1
  else
    let thicknessMap : Option ThicknessMap :=
      if product = "hdmr".data then some hdmr_map
      else if product = "mdf".data then some mdf_map
      else if product = "ply".data then some ply_map
      else if product = "pvc door".data then some pvc_map
      else if product = "wpc board".data then some wpc_map
      else none
    match thicknessMap with
    | some tm =>
      match extract_thickness_from_category category with
      | some t =>
        match lookupAssoc tm t with
        | some w =>
          if product = "ply".data ∨ product = "pvc door".data then .mulSqft w
          else .mulQty w
        | none => .const0
      | none => .const0
    | none =>
      if (product = "laminate".data ∨ product = "liner".data) then
        match lookupAssoc weight_map (product, brand) with
        | some w => .mulQty w
        | none => .const0
      else .const0

/-- One row of the `CategoryMap` sheet: a `MATCH KEYWORD` and its
`NORMALIZED CATEGORY` target. -/
structure CatRule where
  keyword : Str
  target : Str
deriving DecidableEq

/-- Whether one scanned rule of `normalize_category`'s loop fires on the
uppercased raw category: wildcard rows are skipped, a `'+'`-joined keyword
requires every stripped part as a substring, any other keyword is a plain
substring test. -/
def ruleFires (rawCat : Str) (r : CatRule) : Bool :=
  let kw := upperStr r.keyword
  if kw = "*".data then false
  else if containsSub kw "+".data then
    (splitOn (fun c => c == '+') kw).all (fun k => containsSub rawCat (stripChars k))
  else containsSub rawCat kw

/-- The scan loop of `normalize_category` (sale_order.py lines 227-238):
first firing rule wins; otherwise the first wildcard row's target (matched
against the raw, un-uppercased keyword, as in
`cat_map_df[cat_map_df['MATCH KEYWORD'] == '*']`); otherwise the uppercased
raw category. -/
def scanRules (rawCat : Str) (rules : List CatRule) (allRules : List CatRule) : Str :=
  match rules with
  | [] =>
    match allRules.find? (fun r => decide (r.keyword = "*".data)) with
    | some r => r.target
    | none => rawCat
  | r :: rs => if ruleFires rawCat r then r.target else scanRules rawCat rs allRules

/-- `normalize_category` (sale_order.py lines 213-240). `none` raw input
(NaN) returns `none`; a raw value containing `"TEX"` (uppercased)
short-circuits; only laminate/liner products consult the mapping table;
other products return the raw value unchanged. -/
def normalize_category (raw : Option Str) (catMap : List CatRule) (product : Str) :
    Option Str :=
  match raw with
  | Option.none => Option.none
  | some rawS =>
    let rawCat := upperStr rawS
    if containsSub rawCat "TEX".data then some "TEX CATEGORY".data
    else if lowerStr product = "laminate".data ∨ lowerStr product = "liner".data then
      some (scanRules rawCat catMap catMap)
    else some rawS

/-- `[x]` when the condition holds, `[]` otherwise: one conditional
`cat_order.append(...)` of `prepare_data`. -/
def optList (c : Prop) [Decidable c] (x : Str) : List Str :=
  if c then [x] else []

/-- The trailing loop of `prepare_data`'s category-order block: append each
remaining category not already in the accumulated order. -/
def appendLeftovers (acc : List Str) : List Str → List Str
  | [] => acc
  | c :: cs => if c ∈ acc then appendLeftovers acc cs else appendLeftovers (acc ++ [c]) cs

/-- pandas `drop_duplicates()` / `unique()`: first occurrences, in order. -/
def dedupFirst (l : List Str) : List Str := appendLeftovers [] l

/-- The category-order computation of `prepare_data` (sale_order.py lines
299-321), given the deduplicated non-wildcard mapping targets `mapped` and
the distinct normalized categories `allUnique` present in the data:
`"SF"` then `"HG"` (each only when both mapped and present), then the
remaining mapped categories that are present, then `"TEX CATEGORY"`, then
`"UNSPECIFIED"` (each when present), then every leftover present category. -/
def catOrder (mapped allUnique : List Str) : List Str :=
  appendLeftovers
    (optList ("SF".data ∈ mapped ∧ "SF".data ∈ allUnique) "SF".data ++
      optList ("HG".data ∈ mapped ∧ "HG".data ∈ allUnique) "HG".data ++
      mapped.filter (fun c =>
        c ∈ allUnique ∧ c ∉ ["SF".data, "HG".data, "TEX CATEGORY".data]) ++
      optList ("TEX CATEGORY".data ∈ allUnique) "TEX CATEGORY".data ++
      optList ("UNSPECIFIED".data ∈ allUnique) "UNSPECIFIED".data)
    allUnique

/-- `mapped_categories` (sale_order.py line 300): the non-wildcard rows'
targets, deduplicated, in file order. -/
def mappedCategories (catMap : List CatRule) : List Str :=
  dedupFirst ((catMap.filter (fun r => ¬ r.keyword = "*".data)).map (fun r => r.target))

/-- The normalized category annotation of one row
(`normalize_category` followed by `fillna('UNSPECIFIED')`). -/
def rowNormCategory (catMap : List CatRule) (r : Row) : Str :=
  (normalize_category r.category catMap r.product).getD "UNSPECIFIED".data

/-- `df['CATEGORY_NORM'].unique().tolist()`: the distinct normalized
categories of the data, in first-seen order. -/
def presentCategories (catMap : List CatRule) (rows : List Row) : List Str :=
  dedupFirst (rows.map (rowNormCategory catMap))

/-- The full category-order stage of `prepare_data` on the loaded Master
rows and category-mapping table. -/
def prepareCatOrder (catMap : List CatRule) (rows : List Row) : List Str :=
  catOrder (mappedCategories catMap) (presentCategories catMap rows)

/-- A raw spreadsheet cell as seen by the QUANTITY coercion: a number, a
text value, or an empty/NaN cell. -/
inductive RawCell where
  | num (q : ℚ)
  | text (s : Str)
  | null
deriving DecidableEq

/-- `pd.to_numeric(..., errors='coerce')` on one cell: numbers pass
through, numeric text parses, anything else becomes NaN (`none`). -/
def to_numeric_coerce : RawCell → Option ℚ
  | .num q => some q
  | .text s => parseFloat s
  | .null => none

/-- The QUANTITY preparation of `prepare_data` (sale_order.py line 327):
`pd.to_numeric(df['QUANTITY'], errors='coerce').fillna(0)`. -/
def prepareQuantity (c : RawCell) : ℚ :=
  (to_numeric_coerce c).getD 0

/-- One row of the `WeightMap` sheet (PRODUCT, BRAND, WEIGHT_PER_PCS). -/
structure WeightRow where
  product : Str
  brand : Str
  weight : ℚ
deriving DecidableEq

/-- The input workbook as the eight `pd.read_excel` calls of `prepare_data`
see it: `none` stands for a sheet whose read raises (absent or unreadable). -/
structure InputFile where
  master : Option (List Row)
  categoryMap : Option (List CatRule)
  weightMap : Option (List WeightRow)
  hdmrMap : Option ThicknessMap
  mdfMap : Option ThicknessMap
  plyMap : Option ThicknessMap
  pvcMap : Option ThicknessMap
  wpcMap : Option ThicknessMap

/-- The eight tables `prepare_data` works with after its loading `try`. -/
structure LoadedTables where
  df : List Row
  catMap : List CatRule
  weightMapDf : List WeightRow
  hdmrDf : ThicknessMap
  mdfDf : ThicknessMap
  plyDf : ThicknessMap
  pvcDf : ThicknessMap
  wpcDf : ThicknessMap
deriving DecidableEq

/-- The hard-coded substitute dataset of the `except` branch
(sale_order.py lines 275-278): one Laminate/72x48/SF/Test/10 row, a
wildcard-only category map, and empty weight tables. -/
def fallbackTables : LoadedTables where
  df := [⟨"Laminate".data, "72x48".data, some "SF".data, "Test".data, 10⟩]
  catMap := [⟨"*".data, "Default".data⟩]
  weightMapDf := []
  hdmrDf := []
  mdfDf := []
  plyDf := []
  pvcDf := []
  wpcDf := []

/-- The loading `try`/`except` of `prepare_data` (sale_order.py lines
264-278): all eight reads sit in one `try`, so if any single sheet is
absent or malformed the `except` replaces every table — the Master rows
included — with `fallbackTables`; no exception escapes. -/
def loadTables (f : InputFile) : LoadedTables :=
  match f.master, f.categoryMap, f.weightMap, f.hdmrMap, f.mdfMap, f.plyMap, f.pvcMap,
      f.wpcMap with
  | some df, some cm, some wm, some h, some m, some p, some pv, some w =>
    ⟨df, cm, wm, h, m, p, pv, w⟩
  | _, _, _, _, _, _, _, _ => fallbackTables

/-- The `weight_map` dict built at sale_order.py line 281, keyed by
`(product.lower(), brand.upper())`.  The list is reversed so that lookup
finds the last-inserted entry, as a Python dict does. -/
def buildWeightMap (df : List WeightRow) : WeightMap :=
  (df.map (fun r => ((lowerStr r.product, upperStr r.brand), r.weight))).reverse

/-- The SQLite `counters` table (month-year key, integer counter) as an
association list threaded as explicit state. -/
abbrev CounterStore := List (Str × Nat)

/-- `SELECT counter FROM counters WHERE month_year = ?`. -/
def lookupStore (s : CounterStore) (k : Str) : Option Nat :=
  (s.find? (fun p => decide (p.1 = k))).map (fun p => p.2)

/-- The `INSERT`/`UPDATE` of `generate_unique_order_id`: create the month's
row when absent, otherwise overwrite its counter in place. -/
def setStore (s : CounterStore) (k : Str) (v : Nat) : CounterStore :=
  match lookupStore s k with
  | Option.none => s ++ [(k, v)]
  | some _ => s.map (fun p => if p.1 = k then (k, v) else p)

/-- The counter value the current call writes and reports: 1 when the
month has no row yet, the stored counter plus one otherwise. -/
def newCounter (k : Str) (s : CounterStore) : Nat :=
  match lookupStore s k with
  | Option.none => 1
  | some c => c + 1

/-- Decimal digits of `n`, most significant first, by fuel recursion
(Python `str(int)` for positive numbers). -/
def natDigits : Nat → Nat → Str
  | 0, _ => []
  | _ + 1, 0 => []
  | fuel + 1, n + 1 => natDigits fuel ((n + 1) / 10) ++ [Char.ofNat (48 + (n + 1) % 10)]

/-- Python `str(n)` for a natural number. -/
def natRepr (n : Nat) : Str :=
  if n = 0 then "0".data else natDigits n n

/-- Python `str.zfill(w)`: left-pad with `'0'` to at least `w` characters
(longer strings are returned unchanged, never truncated). -/
def zfill (w : Nat) (s : Str) : Str :=
  List.replicate (w - s.length) '0' ++ s

/-- `generate_unique_order_id` (sale_order.py lines 74-114) with the
database modelled as explicit state and the clock's `strftime("%m-%y")`
passed in as `monthYear`; returns the issued id and the updated store.
(The `sqlite3.Error` branch returning `"ERROR-ID"` is the unreachable-store
case, outside this state model.) -/
def generate_unique_order_id (monthYear : Str) (store : CounterStore) :
    Str × CounterStore :=
  (monthYear ++ ('-' :: zfill 5 (natRepr (newCounter monthYear store))),
    setStore store monthYear (newCounter monthYear store))

/-- The store after `k` successive calls in the same month. -/
def iterateGen (monthYear : Str) : Nat → CounterStore → CounterStore
  | 0, s => s
  | k + 1, s => iterateGen monthYear k (generate_unique_order_id monthYear s).2

/-- Python `int(float(q))`: truncation toward zero. -/
def pyIntTrunc (q : ℚ) : ℤ :=
  Int.tdiv q.num (q.den : ℤ)

/-- The cells `write_report` writes for one data row (sale_order.py lines
432-445): the text columns as-is, `int(float(QUANTITY))` in column E, and
the SQFT and WEIGHT formulas in columns F and G. -/
structure RenderedRow where
  productCell : Str
  sizeCell : Str
  categoryCell : Str
  brandCell : Str
  quantityCell : ℤ
  sqftCell : SqftFormula
  weightCell : WeightFormula
deriving DecidableEq

/-- The data-row emission of `write_report` for one prepared row. -/
def renderRow (r : Row) (weight_map : WeightMap)
    (hdmr_map mdf_map ply_map pvc_map wpc_map : ThicknessMap) : RenderedRow where
  productCell := r.product
  sizeCell := r.size
  categoryCell := categoryText r
  brandCell := r.brand
  quantityCell := pyIntTrunc r.quantity
  sqftCell := get_sqft_formula r.product
  weightCell := get_weight_formula r weight_map hdmr_map mdf_map ply_map pvc_map wpc_map

/-- The SQFT annotation `prepare_data` attaches (sale_order.py line 328),
computed from the uncoerced, untruncated quantity. -/
def sqftAnnotation (r : Row) : ℚ :=
  calculate_sqft r.size r.quantity

/-- The value of a category subtotal's `=SUM(E..:E..)` over the group's
written QUANTITY cells: a sum of the truncated integers. -/
def categorySubtotalQty (rows : List Row) : ℤ :=
  (rows.map (fun r => pyIntTrunc r.quantity)).sum

/-- Example mapping table whose non-wildcard targets in file order are
`["HG", "Z"]` (the setting of the category-order claim). -/
def c2CatMap : List CatRule :=
  [⟨"HG".data, "HG".data⟩, ⟨"Z".data, "Z".data⟩]

/-- Example Master rows whose normalized categories, in first-seen order,
are `SF`, `Z`, `HG`, `TEX CATEGORY`. -/
def c2Rows : List Row :=
  [⟨"Laminate".data, "8x4".data, some "SF".data, "B1".data, 1⟩,
   ⟨"Laminate".data, "8x4".data, some "Z".data, "B1".data, 1⟩,
   ⟨"Laminate".data, "8x4".data, some "HG".data, "B1".data, 1⟩,
   ⟨"Laminate".data, "8x4".data, some "TEXTURE".data, "B1".data, 1⟩]

/-- Example Master row distinct from the fallback row. -/
def c8MasterRow : Row :=
  ⟨"Ply".data, "96x48".data, some "18mm PLY".data, "B1".data, 2⟩

/-- Example input: readable Master (and every other sheet), but the
`WeightMap` sheet is absent. -/
def c8Input : InputFile :=
  ⟨some [c8MasterRow], some [], Option.none, some [], some [], some [], some [], some []⟩

/-- Example input whose primary `Master` sheet is unreadable. -/
def c9Input : InputFile :=
  ⟨Option.none, some [], some [], some [], some [], some [], some [], some []⟩

/-- Example mapping table whose (non-wildcard) target is the literal
`"UNSPECIFIED"` — the sentinel the pipeline also uses for null categories. -/
def c3CatMap : List CatRule :=
  [⟨"FOO".data, "UNSPECIFIED".data⟩]

/-- Example Master row whose category matches the `"FOO"` rule, so its
normalized category is the mapped `"UNSPECIFIED"`. -/
def c3Rows : List Row :=
  [⟨"Laminate".data, "8x4".data, some "FOO".data, "B1".data, 1⟩]

/-! ## Theorems -/

/-- C5: for every size string of the form `"LxB"` (case-insensitive
separator, so the string splits into exactly the two parts `p1`, `p2`)
whose parts parse as the numbers `l` and `b`, and every quantity `q`:
when `l ≤ 15` and `b ≤ 15` the computed area is `l * b * q`, and when
`l > 15` or `b > 15` it is `(l * b / 144) * q`. -/
theorem C5_sqft_branches (size p1 p2 : Str) (l b q : ℚ)
    (hx : (upperStr size).contains 'X' = true)
    (hs : splitOn (fun c => c == 'x' || c == 'X') size = [p1, p2])
    (h1 : parseFloat p1 = some l) (h2 : parseFloat p2 = some b) :
    (l ≤ 15 ∧ b ≤ 15 → calculate_sqft size q = l * b * q) ∧
    (15 < l ∨ 15 < b → calculate_sqft size q = l * b / 144 * q) := by
  unfold calculate_sqft
  rw [hx, hs]
  simp only [Bool.true_eq_false, if_false, h1, h2]
  constructor
  · intro h
    rw [if_pos h]
  · intro h
    rw [if_neg]
    rcases h with h | h <;> rintro ⟨hl, hb⟩ <;> linarith

/-- C5 witness: `calculate_sqft "72x48" 1` takes the over-15 branch. -/
theorem C5_witness : calculate_sqft "72x48".data 1 = 72 * 48 / 144 * 1 :=
  (C5_sqft_branches "72x48".data "72".data "48".data 72 48 1 (by decide) (by decide)
    (by decide) (by decide)).2 (by norm_num)

/-- C6 counterexample: the claim says the prepared quantity is always
non-negative, but a numeric input of `-5` is passed through as `-5 < 0`
(`pd.to_numeric(...).fillna(0)` never clamps negative numbers). -/
theorem C6_counterexample :
    prepareQuantity (RawCell.num (-5)) = -5 ∧
    ¬ 0 ≤ prepareQuantity (RawCell.num (-5)) := by
  constructor
  · rfl
  · norm_num [prepareQuantity, to_numeric_coerce]

/-- C6 amended: the prepared quantity is the input's numeric value, with
non-numeric input (unparseable text or an empty cell) mapped to 0; it is
non-negative exactly when the numeric input is, since negative numeric
input is preserved unchanged. -/
theorem C6_amended (c : RawCell) (q : ℚ)
    (hq : to_numeric_coerce c = some q) (hq0 : 0 ≤ q) :
    prepareQuantity RawCell.null = 0 ∧
    (∀ c2 : RawCell, to_numeric_coerce c2 = Option.none → prepareQuantity c2 = 0) ∧
    prepareQuantity c = q ∧
    0 ≤ prepareQuantity c := by
  refine ⟨rfl, ?_, ?_, ?_⟩
  · intro c2 h2
    simp [prepareQuantity, h2]
  · simp [prepareQuantity, hq]
  · simp [prepareQuantity, hq, hq0]

/-- C6 witness: the numeric text `"7"` is preserved as the quantity 7. -/
theorem C6_witness :
    prepareQuantity RawCell.null = 0 ∧
    (∀ c2 : RawCell, to_numeric_coerce c2 = Option.none → prepareQuantity c2 = 0) ∧
    prepareQuantity (RawCell.text "7".data) = 7 ∧
    0 ≤ prepareQuantity (RawCell.text "7".data) :=
  C6_amended (RawCell.text "7".data) 7 (by decide) (by norm_num)

/-- Helper: a scan over rules none of which fires, against a table with no
wildcard row, returns the (uppercased) raw category itself. -/
theorem scanRules_eq_of_no_match (rawCat : Str) (rules allRules : List CatRule)
    (hfire : ∀ r ∈ rules, ruleFires rawCat r = false)
    (hwild : ∀ r ∈ allRules, ¬ r.keyword = "*".data) :
    scanRules rawCat rules allRules = rawCat := by
  induction rules with
  | nil =>
    unfold scanRules
    rw [List.find?_eq_none.mpr]
    intro r hr
    simpa using hwild r hr
  | cons r rs ih =>
    unfold scanRules
    rw [hfire r (by simp)]
    simpa using ih (fun r2 hr2 => hfire r2 (by simp [hr2]))

/-- C7 counterexample: the claim says the raw category comes back with its
original letter case, but for an allow-listed product with no matching
rule and no wildcard the code returns the *uppercased* raw value
(`raw_cat`, not `raw_category`). -/
theorem C7_counterexample :
    normalize_category (some "abc".data) [] "laminate".data = some "ABC".data ∧
    some "ABC".data ≠ some "abc".data := by
  constructor
  · decide
  · decide

/-- C7 amended: for an allow-listed product (laminate/liner) and a non-null
raw category whose uppercasing does not contain `"TEX"`, when no rule fires
and the table has no wildcard row, `normalize_category` returns the
uppercased raw category (identical to the input only when the input has no
lowercase letters). -/
theorem C7_amended (raw : Str) (catMap : List CatRule) (product : Str)
    (hp : lowerStr product = "laminate".data ∨ lowerStr product = "liner".data)
    (htex : containsSub (upperStr raw) "TEX".data = false)
    (hfire : ∀ r ∈ catMap, ruleFires (upperStr raw) r = false)
    (hwild : ∀ r ∈ catMap, ¬ r.keyword = "*".data) :
    normalize_category (some raw) catMap product = some (upperStr raw) := by
  simp only [normalize_category, htex, Bool.false_eq_true, if_false, if_pos hp,
    Option.some.injEq]
  exact scanRules_eq_of_no_match _ _ _ hfire hwild

/-- C7 witness: `"abc"` under laminate with an empty table normalizes to
`"ABC"`. -/
theorem C7_witness :
    normalize_category (some "abc".data) [⟨"Q".data, "T".data⟩] "laminate".data
      = some "ABC".data := by
  have h := C7_amended "abc".data [⟨"Q".data, "T".data⟩] "laminate".data
    (by decide) (by decide) (by decide) (by decide)
  simpa using h

/-- C10: the QUANTITY cell `write_report` emits is `int(float(q))`, the
truncation toward zero of the prepared quantity, and the range-sum subtotal
therefore sums truncated integers, while the SQFT annotation attached by
`prepare_data` was computed from the untruncated quantity; at the
fractional quantity 5/2 the rendered cell is 2 while the annotation of a
`3x4` row is `3 * 4 * (5/2)`. -/
theorem C10_truncated_quantity_cell :
    (∀ (r : Row) (wm : WeightMap) (t1 t2 t3 t4 t5 : ThicknessMap),
      (renderRow r wm t1 t2 t3 t4 t5).quantityCell = pyIntTrunc r.quantity) ∧
    (∀ rows : List Row,
      categorySubtotalQty rows = (rows.map (fun r => pyIntTrunc r.quantity)).sum) ∧
    (∀ r : Row, sqftAnnotation r = calculate_sqft r.size r.quantity) ∧
    pyIntTrunc (5 / 2) = 2 ∧
    sqftAnnotation ⟨"Ply".data, "3x4".data, some "SF".data, "B".data, 5 / 2⟩
      = 3 * 4 * (5 / 2) := by
  refine ⟨fun _ _ _ _ _ _ _ => rfl, fun _ => rfl, fun _ => rfl, ?_, ?_⟩
  · have h1 : ((5 / 2 : ℚ)).num = 5 := by norm_num
    have h2 : ((5 / 2 : ℚ)).den = 2 := by norm_num
    rw [pyIntTrunc, h1, h2]
    decide
  · show calculate_sqft "3x4".data (5 / 2) = 3 * 4 * (5 / 2)
    simp +decide [calculate_sqft, upperStr, splitOn, parseFloat, parseUnsigned, digitsToNat]

/-- Helper: a digit character has value at most 9. -/
theorem digitVal_le_nine (c : Char) (h : c.isDigit = true) : digitVal c ≤ 9 := by
  simp only [Char.isDigit, Bool.and_eq_true, decide_eq_true_eq] at h
  have n2 : c.val.toNat ≤ 57 := UInt32.toNat_le_of_le (by norm_num) h.2
  simp only [digitVal, Char.toNat]
  omega

/-- Helper: a digit's value, cast to ℚ, is at most 15. -/
theorem digitVal_cast_le_fifteen (c : Char) (h : c.isDigit = true) :
    ((digitVal c : ℕ) : ℚ) ≤ 15 := by
  have h9 := digitVal_le_nine c h
  have : ((digitVal c : ℕ) : ℚ) ≤ 9 := by exact_mod_cast h9
  linarith

/-- Helper: a digit character is neither `'x'` nor `'X'`. -/
theorem digit_not_sep (c : Char) (h : c.isDigit = true) :
    (c == 'x' || c == 'X') = false := by
  simp only [Bool.or_eq_false_iff, beq_eq_false_iff_ne, ne_eq]
  constructor
  · intro heq; subst heq; exact absurd h (by decide)
  · intro heq; subst heq; exact absurd h (by decide)

/-- Helper: a digit character is not a minus sign. -/
theorem digit_ne_minus (c : Char) (h : c.isDigit = true) : ¬ c = '-' := by
  intro heq; subst heq; exact absurd h (by decide)

/-- Helper: `float()` on a single digit character. -/
theorem parseFloat_one_digit (c : Char) (h : c.isDigit = true) :
    parseFloat [c] = some ((digitVal c : ℕ) : ℚ) := by
  unfold parseFloat parseUnsigned
  simp [List.takeWhile, List.dropWhile, h, digit_ne_minus c h, digitsToNat, digitVal]

/-- Helper: `float()` on a two-digit string. -/
theorem parseFloat_two_digits (c d : Char) (hc : c.isDigit = true) (hd : d.isDigit = true) :
    parseFloat [c, d] = some ((10 * digitVal c + digitVal d : ℕ) : ℚ) := by
  unfold parseFloat parseUnsigned
  simp [List.takeWhile, List.dropWhile, hc, hd, digit_ne_minus c hc, digitsToNat, digitVal]

/-- Helper: splitting a single-digit `"axb"` size on the separator. -/
theorem splitOn_single_digits (a b : Char) (ha : a.isDigit = true) (hb : b.isDigit = true) :
    splitOn (fun c => c == 'x' || c == 'X') [a, 'x', b] = [[a], [b]] := by
  simp +decide [splitOn, digit_not_sep a ha, digit_not_sep b hb]

/-- Helper: splitting a two-digit `"abxcd"` size on the separator. -/
theorem splitOn_double_digits (a b c d : Char) (ha : a.isDigit = true)
    (hb : b.isDigit = true) (hc : c.isDigit = true) (hd : d.isDigit = true) :
    splitOn (fun e => e == 'x' || e == 'X') [a, b, 'x', c, d] = [[a, b], [c, d]] := by
  simp +decide [splitOn, digit_not_sep a ha, digit_not_sep b hb, digit_not_sep c hc,
    digit_not_sep d hd]

/-- Helper: the uppercased size string contains `'X'` when the original
contains the separator `'x'`. -/
theorem upper_contains_sep (s1 s2 : Str) :
    (upperStr (s1 ++ 'x' :: s2)).contains 'X' = true := by
  have hm : 'X' ∈ upperStr (s1 ++ 'x' :: s2) := by
    simp only [upperStr, List.mem_map]
    exact ⟨'x', by simp, by decide⟩
  exact List.elem_eq_true_of_mem hm

/-- C1 counterexample: on the laminate fallback row (`SIZE "72x48"`,
quantity 10) the emitted SQFT cell is the constant `"0"` and evaluates to
0, while `calculate_sqft` gives 240. -/
theorem C1_counterexample :
    evalSqftFormula (get_sqft_formula "Laminate".data) "72x48".data 10 = some 0 ∧
    calculate_sqft "72x48".data 10 = 240 ∧ (0 : ℚ) ≠ 240 := by
  refine ⟨by decide, ?_, by norm_num⟩
  simp +decide [calculate_sqft, upperStr, splitOn, parseFloat, parseUnsigned, digitsToNat]
  norm_num

/-- C1 amended: the emitted area formula agrees with `calculate_sqft` only
on a restricted family of rows.  For laminate/liner products the cell is
the constant 0 whatever the computed area; for every other product the
formula evaluated on the row's SIZE and QUANTITY cells equals
`calculate_sqft` when the size is `"axb"` with single-digit parts, and
when the size is `"abxcd"` with two-digit parts not both `≤ 15`. -/
theorem C1_amended (p : Str) (q : ℚ)
    (hp : ¬ (lowerStr p = "laminate".data ∨ lowerStr p = "liner".data))
    (a b c d e f : Char) (ha : a.isDigit = true) (hb : b.isDigit = true)
    (hc : c.isDigit = true) (hd : d.isDigit = true) (he : e.isDigit = true)
    (hf : f.isDigit = true)
    (hgt : 15 < 10 * digitVal c + digitVal d ∨ 15 < 10 * digitVal e + digitVal f) :
    evalSqftFormula (get_sqft_formula p) [a, 'x', b] q
      = some (calculate_sqft [a, 'x', b] q) ∧
    evalSqftFormula (get_sqft_formula p) [c, d, 'x', e, f] q
      = some (calculate_sqft [c, d, 'x', e, f] q) := by
  have hform : get_sqft_formula p = SqftFormula.letSqft := by
    simp [get_sqft_formula, hp]
  rw [hform]
  constructor
  · have hev : evalSqftFormula SqftFormula.letSqft [a, 'x', b] q
        = some ((digitVal a : ℕ) * ((digitVal b : ℕ) : ℚ) * q) := by
      unfold evalSqftFormula
      rw [show ([a, 'x', b].take 1) = [a] from rfl]
      rw [show ([a, 'x', b].drop ([a, 'x', b].length - 1)) = [b] from rfl]
      rw [if_pos (show [a, 'x', b].length < 4 by simp),
        parseFloat_one_digit a ha, parseFloat_one_digit b hb]
    have hca : calculate_sqft [a, 'x', b] q
        = (digitVal a : ℕ) * ((digitVal b : ℕ) : ℚ) * q := by
      have hx3 : (upperStr [a, 'x', b]).contains 'X' = true := by
        simpa using upper_contains_sep [a] [b]
      unfold calculate_sqft
      rw [hx3]
      simp only [Bool.true_eq_false, if_false]
      rw [splitOn_single_digits a b ha hb]
      simp only [parseFloat_one_digit a ha, parseFloat_one_digit b hb]
      rw [if_pos ⟨digitVal_cast_le_fifteen a ha, digitVal_cast_le_fifteen b hb⟩]
    rw [hev, hca]
  · have hev : evalSqftFormula SqftFormula.letSqft [c, d, 'x', e, f] q
        = some ((10 * digitVal c + digitVal d : ℕ)
            * ((10 * digitVal e + digitVal f : ℕ) : ℚ) / 144 * q) := by
      unfold evalSqftFormula
      rw [show ([c, d, 'x', e, f].take 2) = [c, d] from rfl]
      rw [show ([c, d, 'x', e, f].drop ([c, d, 'x', e, f].length - 2)) = [e, f] from rfl]
      rw [if_neg (show ¬ [c, d, 'x', e, f].length < 4 by simp),
        parseFloat_two_digits c d hc hd, parseFloat_two_digits e f he hf]
    have hca : calculate_sqft [c, d, 'x', e, f] q
        = (10 * digitVal c + digitVal d : ℕ)
            * ((10 * digitVal e + digitVal f : ℕ) : ℚ) / 144 * q := by
      have hx5 : (upperStr [c, d, 'x', e, f]).contains 'X' = true := by
        simpa using upper_contains_sep [c, d] [e, f]
      unfold calculate_sqft
      rw [hx5]
      simp only [Bool.true_eq_false, if_false]
      rw [splitOn_double_digits c d e f hc hd he hf]
      simp only [parseFloat_two_digits c d hc hd, parseFloat_two_digits e f he hf]
      rw [if_neg ?_]
      rcases hgt with hgt | hgt <;> rintro ⟨h1, h2⟩
      · have : (15 : ℚ) < ((10 * digitVal c + digitVal d : ℕ) : ℚ) := by exact_mod_cast hgt
        linarith
      · have : (15 : ℚ) < ((10 * digitVal e + digitVal f : ℕ) : ℚ) := by exact_mod_cast hgt
        linarith
    rw [hev, hca]

/-- C1 witness: for product `"Ply"` the formula on size `"72x48"` agrees
with `calculate_sqft`. -/
theorem C1_witness :
    evalSqftFormula (get_sqft_formula "Ply".data) "72x48".data 3
      = some (calculate_sqft "72x48".data 3) :=
  (C1_amended "Ply".data 3 (by decide) '7' '2' '7' '2' '4' '8' (by decide) (by decide)
    (by decide) (by decide) (by decide) (by decide) (by decide)).2

/-- C2 counterexample: with present categories `SF, Z, HG, TEX CATEGORY`
(first seen in that order) and non-wildcard mapping targets `[HG, Z]`, the
computed order is not the claimed `[SF, HG, Z, TEX CATEGORY]` — `"SF"` is
privileged first only when it is *also* a mapping target, which it is not
here. -/
theorem C2_counterexample :
    mappedCategories c2CatMap = ["HG".data, "Z".data] ∧
    presentCategories c2CatMap c2Rows
      = ["SF".data, "Z".data, "HG".data, "TEX CATEGORY".data] ∧
    prepareCatOrder c2CatMap c2Rows
      ≠ ["SF".data, "HG".data, "Z".data, "TEX CATEGORY".data] := by
  refine ⟨by decide, by decide, by decide⟩

/-- C2 amended: under the same premise (non-wildcard targets `[HG, Z]`,
present categories `SF, Z, HG, TEX CATEGORY` in first-seen order), the
computed category order is `[HG, Z, TEX CATEGORY, SF]`: `"SF"` is not
privileged because it is not a mapping target, so it falls into the
trailing leftover block. -/
theorem C2_amended (catMap : List CatRule) (rows : List Row)
    (hm : mappedCategories catMap = ["HG".data, "Z".data])
    (hp : presentCategories catMap rows
      = ["SF".data, "Z".data, "HG".data, "TEX CATEGORY".data]) :
    prepareCatOrder catMap rows
      = ["HG".data, "Z".data, "TEX CATEGORY".data, "SF".data] := by
  unfold prepareCatOrder
  rw [hm, hp]
  decide

/-- C2 witness: the amended order on the concrete example input. -/
theorem C2_witness :
    prepareCatOrder c2CatMap c2Rows
      = ["HG".data, "Z".data, "TEX CATEGORY".data, "SF".data] :=
  C2_amended c2CatMap c2Rows (by decide) (by decide)

/-- C8 counterexample: with a readable Master sheet but no `WeightMap`
sheet, the single loading `try` replaces *every* table — the returned rows
are the built-in fallback row, not the Master sheet's rows. -/
theorem C8_counterexample :
    loadTables c8Input = fallbackTables ∧
    (loadTables c8Input).df ≠ [c8MasterRow] := by
  refine ⟨rfl, by decide⟩

/-- C8 amended: when the `WeightMap` sheet is absent the loader still does
not raise, but it substitutes the fallback for *all* tables (Master rows
included, so the returned rows are the fallback dataset rather than the
Master sheet's rows); the weight map is then empty, and any laminate/liner
row — whose key is necessarily missing — gets the weight formula `"0"`. -/
theorem C8_amended (f : InputFile) (hw : f.weightMap = Option.none) :
    loadTables f = fallbackTables ∧
    buildWeightMap (loadTables f).weightMapDf = [] ∧
    (∀ r : Row,
      lowerStr r.product = "laminate".data ∨ lowerStr r.product = "liner".data →
      get_weight_formula r (buildWeightMap (loadTables f).weightMapDf) [] [] [] [] []
        = WeightFormula.const0) := by
  obtain ⟨m, cm, wm, t1, t2, t3, t4, t5⟩ := f
  simp only at hw
  subst hw
  have hload : loadTables ⟨m, cm, Option.none, t1, t2, t3, t4, t5⟩ = fallbackTables := by
    cases m <;> cases cm <;> cases t1 <;> cases t2 <;> cases t3 <;> cases t4 <;>
      cases t5 <;> rfl
  refine ⟨hload, by rw [hload]; rfl, ?_⟩
  intro r hr
  rw [hload]
  show get_weight_formula r [] [] [] [] [] [] = WeightFormula.const0
  rcases hr with h | h <;>
    simp +decide [get_weight_formula, h, lookupAssoc]

/-- C8 witness: the concrete missing-WeightMap input is replaced by the
fallback tables, and its laminate fallback row gets weight `"0"`. -/
theorem C8_witness :
    loadTables c8Input = fallbackTables ∧
    buildWeightMap (loadTables c8Input).weightMapDf = [] ∧
    (∀ r : Row,
      lowerStr r.product = "laminate".data ∨ lowerStr r.product = "liner".data →
      get_weight_formula r (buildWeightMap (loadTables c8Input).weightMapDf) [] [] [] [] []
        = WeightFormula.const0) :=
  C8_amended c8Input rfl

/-- C9 counterexample: an input with an unreadable `Master` sheet does not
propagate any failure — the loader returns the built-in fallback dataset
(one row), and report generation proceeds on it. -/
theorem C9_counterexample :
    loadTables c9Input = fallbackTables ∧ (loadTables c9Input).df.length = 1 :=
  ⟨rfl, rfl⟩

/-- C9 amended: a fully unreadable primary table is *not* a terminal
failure: `prepare_data`'s loading stage is total, and on any input whose
Master read raises it substitutes the built-in fallback dataset (a
non-empty row set), so a report is produced rather than an error
propagated. -/
theorem C9_amended (f : InputFile) (hm : f.master = Option.none) :
    loadTables f = fallbackTables ∧ (loadTables f).df ≠ [] := by
  obtain ⟨m, cm, wm, t1, t2, t3, t4, t5⟩ := f
  simp only at hm
  subst hm
  have hload : loadTables ⟨Option.none, cm, wm, t1, t2, t3, t4, t5⟩ = fallbackTables := by
    cases cm <;> cases wm <;> cases t1 <;> cases t2 <;> cases t3 <;> cases t4 <;>
      cases t5 <;> rfl
  exact ⟨hload, by rw [hload]; decide⟩

/-- C9 witness: the concrete unreadable-Master input yields the fallback
dataset. -/
theorem C9_witness :
    loadTables c9Input = fallbackTables ∧ (loadTables c9Input).df ≠ [] :=
  C9_amended c9Input rfl

/-- Helper: appending a fresh row for key `k` makes it found. -/
theorem lookupStore_append_single (s : CounterStore) (k : Str) (v : Nat)
    (h : lookupStore s k = Option.none) :
    lookupStore (s ++ [(k, v)]) k = some v := by
  induction s with
  | nil => simp [lookupStore, List.find?]
  | cons p ps ih =>
    by_cases hpk : p.1 = k
    · simp [lookupStore, List.find?, hpk] at h
    · simp only [lookupStore, List.cons_append, List.find?] at h ⊢
      rw [decide_eq_false hpk] at h ⊢
      exact ih h

/-- Helper: updating every row with key `k` makes the lookup return the
new value, provided some row with key `k` exists. -/
theorem lookupStore_map_update (s : CounterStore) (k : Str) (v : Nat)
    (h : ¬ lookupStore s k = Option.none) :
    lookupStore (s.map (fun p => if p.1 = k then (k, v) else p)) k = some v := by
  induction s with
  | nil => simp [lookupStore, List.find?] at h
  | cons p ps ih =>
    by_cases hpk : p.1 = k
    · simp [lookupStore, List.find?, hpk]
    · simp only [lookupStore, List.map_cons, List.find?, if_neg hpk] at h ⊢
      rw [decide_eq_false hpk] at h ⊢
      exact ih h

/-- Helper: after `setStore s k v`, looking up `k` returns `v`. -/
theorem lookupStore_set_self (s : CounterStore) (k : Str) (v : Nat) :
    lookupStore (setStore s k v) k = some v := by
  unfold setStore
  cases h : lookupStore s k with
  | none => exact lookupStore_append_single s k v h
  | some c => exact lookupStore_map_update s k v (by rw [h]; exact fun hc => by cases hc)

/-- Helper: appending a row for key `k` does not change another key's
lookup. -/
theorem lookupStore_append_other (s : CounterStore) (k k2 : Str) (v : Nat)
    (hne : k2 ≠ k) :
    lookupStore (s ++ [(k, v)]) k2 = lookupStore s k2 := by
  induction s with
  | nil => simp [lookupStore, List.find?, decide_eq_false (Ne.symm hne)]
  | cons p ps ih =>
    simp only [lookupStore, List.cons_append, List.find?] at *
    cases hd : decide (p.1 = k2) with
    | true => rfl
    | false => exact ih

/-- Helper: overwriting the rows of key `k` does not change another key's
lookup. -/
theorem lookupStore_update_other (s : CounterStore) (k k2 : Str) (v : Nat)
    (hne : k2 ≠ k) :
    lookupStore (s.map (fun p => if p.1 = k then (k, v) else p)) k2
      = lookupStore s k2 := by
  induction s with
  | nil => rfl
  | cons p ps ih =>
    by_cases hk : p.1 = k
    · have h1 : ¬ ((k, v) : Str × Nat).1 = k2 := fun h => hne h.symm
      have h2 : ¬ p.1 = k2 := by rw [hk]; exact fun h => hne h.symm
      simp only [lookupStore, List.map_cons, List.find?, if_pos hk] at *
      rw [decide_eq_false h1, decide_eq_false h2]
      exact ih
    · simp only [lookupStore, List.map_cons, List.find?, if_neg hk] at *
      cases hd : decide (p.1 = k2) with
      | true => rfl
      | false => exact ih

/-- Helper: `setStore` leaves every other key's lookup unchanged. -/
theorem lookupStore_set_other (s : CounterStore) (k k2 : Str) (v : Nat)
    (hne : k2 ≠ k) :
    lookupStore (setStore s k v) k2 = lookupStore s k2 := by
  unfold setStore
  cases hs : lookupStore s k with
  | none => exact lookupStore_append_other s k k2 v hne
  | some c => exact lookupStore_update_other s k k2 v hne

/-- Helper: one call advances the month's counter by exactly one. -/
theorem newCounter_gen (m : Str) (s : CounterStore) :
    newCounter m (generate_unique_order_id m s).2 = newCounter m s + 1 := by
  have h := lookupStore_set_self s m (newCounter m s)
  show newCounter m (setStore s m (newCounter m s)) = newCounter m s + 1
  generalize hn : newCounter m s = n at h ⊢
  unfold newCounter
  rw [h]

/-- Helper: `k` successive calls advance the month's counter by `k`. -/
theorem newCounter_iterate (m : Str) (k : Nat) (s : CounterStore) :
    newCounter m (iterateGen m k s) = newCounter m s + k := by
  induction k generalizing s with
  | zero => rfl
  | succ k ih =>
    show newCounter m (iterateGen m k (generate_unique_order_id m s).2)
      = newCounter m s + (k + 1)
    rw [ih, newCounter_gen]
    omega

/-- Helper: calls in month `m` never touch another month's row. -/
theorem lookupStore_iterate_other (m m2 : Str) (hne : m2 ≠ m) (k : Nat)
    (s : CounterStore) :
    lookupStore (iterateGen m k s) m2 = lookupStore s m2 := by
  induction k generalizing s with
  | zero => rfl
  | succ k ih =>
    show lookupStore (iterateGen m k (generate_unique_order_id m s).2) m2
      = lookupStore s m2
    rw [ih]
    exact lookupStore_set_other s m m2 (newCounter m s) hne

/-- Helper: the digit expansion of `n < 10 ^ e` has at most `e` digits. -/
theorem natDigits_length_le (f : Nat) :
    ∀ n e : Nat, n ≤ f → n < 10 ^ e → (natDigits f n).length ≤ e := by
  induction f with
  | zero => intro n e _ _; simp [natDigits]
  | succ f ih =>
    intro n e hn he
    match n with
    | 0 => simp [natDigits]
    | n + 1 =>
      have he1 : 1 ≤ e := by
        rcases Nat.eq_zero_or_pos e with rfl | hpos
        · simp at he
        · exact hpos
      obtain ⟨e2, rfl⟩ : ∃ e2, e = e2 + 1 := ⟨e - 1, by omega⟩
      show (natDigits f ((n + 1) / 10) ++ [Char.ofNat (48 + (n + 1) % 10)]).length ≤ e2 + 1
      rw [List.length_append]
      have hp : (10 : Nat) ^ (e2 + 1) = 10 ^ e2 * 10 := pow_succ 10 e2
      have hlt : (n + 1) / 10 < 10 ^ e2 := by omega
      have hle : (n + 1) / 10 ≤ f := by omega
      have := ih ((n + 1) / 10) e2 hle hlt
      simp only [List.length_cons, List.length_nil]
      omega

/-- Helper: `str(n)` has at most `e ≥ 1` characters when `n < 10 ^ e`. -/
theorem natRepr_length_le (n e : Nat) (h1 : 1 ≤ e) (h : n < 10 ^ e) :
    (natRepr n).length ≤ e := by
  unfold natRepr
  split
  · simpa using h1
  · exact natDigits_length_le n n e le_rfl h

/-- Helper: `zfill w` yields exactly `w` characters when the input is no
longer than `w`. -/
theorem zfill_length (w : Nat) (s : Str) (h : s.length ≤ w) :
    (zfill w s).length = w := by
  simp [zfill]
  omega

/-- C4 counterexample: the claim's `MM-YY-NNNNN` 5-digit-suffix format
breaks once a month's counter passes 99999 — `str(n).zfill(5)` pads but
never truncates, so the 100000th id of a month carries a 6-digit suffix. -/
theorem C4_counterexample :
    (generate_unique_order_id "01-26".data (iterateGen "01-26".data 99999 [])).1
      = "01-26-".data ++ natRepr 100000 ∧
    (natRepr 100000).length = 6 := by
  have hnc : newCounter "01-26".data (iterateGen "01-26".data 99999 []) = 100000 := by
    rw [newCounter_iterate]
    norm_num [newCounter, lookupStore, List.find?]
  constructor
  · show "01-26".data ++
        ('-' :: zfill 5 (natRepr (newCounter "01-26".data
          (iterateGen "01-26".data 99999 []))))
      = "01-26-".data ++ natRepr 100000
    rw [hnc]
    decide
  · decide

/-- C4 amended: issued ids have the form `MM-YY-` followed by the month's
counter zero-padded to *at least* five digits (exactly five while the
month's counter stays below 100000).  Starting from a store with no row
for month `m`, the call after `k` prior calls issues suffix `k + 1` — so
the first call of the month issues 1 and the suffix strictly increases by
one per call — and no call in month `m` touches any other month's row, so
a later month starts again at 1. -/
theorem C4_amended (m m2 : Str) (s : CounterStore) (k : Nat)
    (hfresh : lookupStore s m = Option.none) (hm2 : m2 ≠ m) (hk : k ≤ 99998) :
    (generate_unique_order_id m (iterateGen m k s)).1
      = m ++ '-' :: zfill 5 (natRepr (k + 1)) ∧
    (zfill 5 (natRepr (k + 1))).length = 5 ∧
    newCounter m (iterateGen m (k + 1) s) = newCounter m (iterateGen m k s) + 1 ∧
    lookupStore (generate_unique_order_id m (iterateGen m k s)).2 m2
      = lookupStore (iterateGen m k s) m2 := by
  have hfresh1 : newCounter m s = 1 := by
    unfold newCounter
    rw [hfresh]
  have hnc : newCounter m (iterateGen m k s) = k + 1 := by
    rw [newCounter_iterate, hfresh1]
    omega
  refine ⟨?_, ?_, ?_, ?_⟩
  · show m ++ ('-' :: zfill 5 (natRepr (newCounter m (iterateGen m k s))))
      = m ++ '-' :: zfill 5 (natRepr (k + 1))
    rw [hnc]
  · apply zfill_length
    apply natRepr_length_le (k + 1) 5 (by norm_num)
    have : (10 : Nat) ^ 5 = 100000 := by norm_num
    omega
  · rw [newCounter_iterate, newCounter_iterate]
    omega
  · exact lookupStore_set_other (iterateGen m k s) m m2
      (newCounter m (iterateGen m k s)) hm2

/-- C4 witness: the first call of month `01-26` on an empty store issues
`01-26-00001`, and leaves month `02-26` unseen. -/
theorem C4_witness :
    (generate_unique_order_id "01-26".data (iterateGen "01-26".data 0 [])).1
      = "01-26".data ++ '-' :: zfill 5 (natRepr (0 + 1)) ∧
    (zfill 5 (natRepr (0 + 1))).length = 5 ∧
    newCounter "01-26".data (iterateGen "01-26".data (0 + 1) [])
      = newCounter "01-26".data (iterateGen "01-26".data 0 []) + 1 ∧
    lookupStore (generate_unique_order_id "01-26".data
        (iterateGen "01-26".data 0 [])).2 "02-26".data
      = lookupStore (iterateGen "01-26".data 0 []) "02-26".data :=
  C4_amended "01-26".data "02-26".data [] 0 rfl (by decide) (by norm_num)

/-- Helper: membership in one conditional append segment. -/
@[simp] theorem mem_optList {c : Prop} [Decidable c] {x y : Str} :
    y ∈ optList c x ↔ c ∧ y = x := by
  unfold optList
  split
  · rename_i h
    simp [h]
  · rename_i h
    simp [h]

/-- Helper: a conditional append segment has no duplicates. -/
theorem nodup_optList {c : Prop} [Decidable c] {x : Str} : (optList c x).Nodup := by
  unfold optList
  split <;> simp

/-- Helper: membership after the leftover-appending loop. -/
theorem mem_appendLeftovers (l : List Str) :
    ∀ (acc : List Str) (x : Str), x ∈ appendLeftovers acc l ↔ x ∈ acc ∨ x ∈ l := by
  induction l with
  | nil => intro acc x; simp [appendLeftovers]
  | cons c cs ih =>
    intro acc x
    unfold appendLeftovers
    by_cases hc : c ∈ acc
    · rw [if_pos hc, ih]
      simp only [List.mem_cons]
      constructor
      · rintro (h | h)
        · exact Or.inl h
        · exact Or.inr (Or.inr h)
      · rintro (h | h | h)
        · exact Or.inl h
        · subst h; exact Or.inl hc
        · exact Or.inr h
    · rw [if_neg hc, ih]
      simp only [List.mem_append, List.mem_singleton, List.mem_cons]
      tauto

/-- Helper: the leftover-appending loop preserves the no-duplicates
invariant. -/
theorem nodup_appendLeftovers (l : List Str) :
    ∀ acc : List Str, acc.Nodup → (appendLeftovers acc l).Nodup := by
  induction l with
  | nil => intro acc h; exact h
  | cons c cs ih =>
    intro acc h
    unfold appendLeftovers
    by_cases hc : c ∈ acc
    · rw [if_pos hc]
      exact ih acc h
    · rw [if_neg hc]
      apply ih
      rw [List.nodup_append]
      refine ⟨h, List.nodup_singleton c, ?_⟩
      intro a ha hmem
      rw [List.mem_singleton] at hmem
      subst hmem
      exact hc ha

/-- Helper: deduplication keeps exactly the original members. -/
theorem mem_dedupFirst (l : List Str) (x : Str) : x ∈ dedupFirst l ↔ x ∈ l := by
  unfold dedupFirst
  rw [mem_appendLeftovers]
  simp

/-- Helper: deduplication produces no duplicates. -/
theorem nodup_dedupFirst (l : List Str) : (dedupFirst l).Nodup :=
  nodup_appendLeftovers l [] List.nodup_nil

/-- Helper: an element of a conditional segment is absent from a list not
containing the segment's element. -/
theorem disjoint_optList_left {c : Prop} [Decidable c] {x : Str} {l : List Str}
    (h : x ∉ l) : (optList c x).Disjoint l := by
  intro a ha hb
  rw [mem_optList] at ha
  exact h (ha.2 ▸ hb)

/-- Helper: symmetric form of `disjoint_optList_left`. -/
theorem disjoint_left_optList {c : Prop} [Decidable c] {x : Str} {l : List Str}
    (h : x ∉ l) : l.Disjoint (optList c x) := by
  intro a ha hb
  rw [mem_optList] at hb
  exact h (hb.2 ▸ ha)

/-- Helper: every entry of the category order is a category present in the
data, and conversely every present category enters the order. -/
theorem mem_catOrder (mapped allU : List Str) (x : Str) :
    x ∈ catOrder mapped allU ↔ x ∈ allU := by
  unfold catOrder
  rw [mem_appendLeftovers]
  constructor
  · rintro (hb | h)
    · simp only [List.mem_append, mem_optList, List.mem_filter,
        decide_eq_true_eq] at hb
      rcases hb with ((((h | h) | h) | h) | h)
      · rw [h.2]; exact h.1.2
      · rw [h.2]; exact h.1.2
      · exact h.2.1
      · rw [h.2]; exact h.1
      · rw [h.2]; exact h.1
    · exact h
  · intro h
    exact Or.inr h

/-- Helper: the category order has no duplicates, provided the mapping
targets do not themselves contain the `"UNSPECIFIED"` sentinel. -/
theorem nodup_catOrder (mapped allU : List Str) (hm : mapped.Nodup)
    (hu : "UNSPECIFIED".data ∉ mapped) : (catOrder mapped allU).Nodup := by
  unfold catOrder
  apply nodup_appendLeftovers
  have hfil : ∀ x ∈ mapped.filter (fun c =>
      decide (c ∈ allU ∧ c ∉ ["SF".data, "HG".data, "TEX CATEGORY".data])),
      x ∈ mapped ∧ x ∈ allU ∧
        x ∉ ["SF".data, "HG".data, "TEX CATEGORY".data] := by
    intro x hx
    rw [List.mem_filter, decide_eq_true_eq] at hx
    exact ⟨hx.1, hx.2.1, hx.2.2⟩
  rw [List.nodup_append, List.nodup_append, List.nodup_append, List.nodup_append]
  rw [List.disjoint_append_left, List.disjoint_append_left,
    List.disjoint_append_left, List.disjoint_append_left,
    List.disjoint_append_left, List.disjoint_append_left]
  refine ⟨⟨⟨⟨nodup_optList, nodup_optList, ?_⟩, hm.filter _, ⟨?_, ?_⟩⟩,
    nodup_optList, ⟨⟨?_, ?_⟩, ?_⟩⟩, nodup_optList, ⟨⟨⟨?_, ?_⟩, ?_⟩, ?_⟩⟩
  · exact disjoint_optList_left (by simp)
  · exact disjoint_optList_left (fun hx => by
      rcases hfil _ hx with ⟨_, _, hno⟩
      exact hno (by decide))
  · exact disjoint_optList_left (fun hx => by
      rcases hfil _ hx with ⟨_, _, hno⟩
      exact hno (by decide))
  · exact disjoint_optList_left (by simp)
  · exact disjoint_optList_left (by simp)
  · intro a ha hb
    rcases hfil _ ha with ⟨_, _, hno⟩
    rw [mem_optList] at hb
    exact hno (by rw [hb.2]; decide)
  · exact disjoint_optList_left (by simp)
  · exact disjoint_optList_left (by simp)
  · intro a ha hb
    rcases hfil _ ha with ⟨hmap, _, _⟩
    rw [mem_optList] at hb
    exact hu (hb.2 ▸ hmap)
  · exact disjoint_optList_left (by simp)

/-- C3 counterexample: when the mapping table's non-wildcard targets
include the literal `"UNSPECIFIED"` and a row maps to it, the category
order lists `"UNSPECIFIED"` twice — once from the mapped-categories loop
and once from the unconditional `"UNSPECIFIED"` append. -/
theorem C3_counterexample :
    prepareCatOrder c3CatMap c3Rows = ["UNSPECIFIED".data, "UNSPECIFIED".data] ∧
    ¬ (prepareCatOrder c3CatMap c3Rows).Nodup := by
  refine ⟨by decide, by decide⟩

/-- C3 amended: the category order contains each present normalized
category, and only those; it has no duplicates provided the mapping
table's non-wildcard targets do not include the literal `"UNSPECIFIED"`
sentinel (in which case `"UNSPECIFIED"` is listed twice when present). -/
theorem C3_amended (catMap : List CatRule) (rows : List Row)
    (h : "UNSPECIFIED".data ∉ mappedCategories catMap) :
    (∀ c, c ∈ prepareCatOrder catMap rows ↔ c ∈ presentCategories catMap rows) ∧
    (prepareCatOrder catMap rows).Nodup := by
  constructor
  · intro c
    exact mem_catOrder _ _ c
  · exact nodup_catOrder _ _ (nodup_dedupFirst _) h

/-- C3 witness: on the concrete `[HG, Z]` example the order is
duplicate-free and contains `"SF"` exactly as present. -/
theorem C3_witness :
    ("SF".data ∈ prepareCatOrder c2CatMap c2Rows
      ↔ "SF".data ∈ presentCategories c2CatMap c2Rows) ∧
    (prepareCatOrder c2CatMap c2Rows).Nodup :=
  ⟨(C3_amended c2CatMap c2Rows (by decide)).1 _,
    (C3_amended c2CatMap c2Rows (by decide)).2⟩

end SaleOrder
